import Mathlib

/-!
Verification of the Gunrock application drivers
(src/gunrock/app/bfs/bfs_app.cu and src/gunrock/app/pr/pr_app.cu)
against their natural-language specification.

The two driver files are host-side C++/CUDA; their control flow and
arithmetic are embedded shallowly below.  Engine internals that live in
headers outside the two driver files (BFSProblem, PRProblem, the enactors,
graphio helpers, the Csr class and the gunrock.h enums) are modelled from
the specification; every such definition carries a doc comment starting
with "Modelled from the spec:".
-/

namespace Gunrock

/-- Compressed sparse row graph as assembled by the dispatch functions
(bfs_app.cu lines 256-260, pr_app.cu lines 238-242): a node count together
with row-offset and column-index arrays.  The C arrays hold int values and
are modelled as lists of integers. -/
structure Csr where
  nodes : Nat
  row_offsets : List Int
  column_indices : List Int
deriving DecidableEq, Repr

/-- Out-degree of vertex v, computed as row_offsets[v+1] - row_offsets[v],
exactly the expression used by the DisplayStats loop (bfs_app.cu line 89). -/
def degree (g : Csr) (v : Nat) : Int :=
  g.row_offsets.getD (v + 1) 0 - g.row_offsets.getD v 0

/-- Counting loop of the BFS DisplayStats (bfs_app.cu lines 82-91): walk all
vertices, and for each vertex whose label is greater than -1, add one to
nodes_visited and its out-degree to edges_visited. -/
def visitedCounts (g : Csr) (h_labels : List Int) : Int × Int :=
  (List.range g.nodes).foldl
    (fun acc i =>
      if h_labels.getD i (-1) > -1 then (acc.1 + 1, acc.2 + degree g i) else acc)
    (0, 0)

/-- nodes_visited accumulator of DisplayStats (bfs_app.cu line 88). -/
def nodes_visited (g : Csr) (h_labels : List Int) : Int :=
  (visitedCounts g h_labels).1

/-- edges_visited accumulator of DisplayStats (bfs_app.cu line 89). -/
def edges_visited (g : Csr) (h_labels : List Int) : Int :=
  (visitedCounts g h_labels).2

/-- redundant_work as computed by DisplayStats (bfs_app.cu lines 93-100):
zero unless total_queued > 0, otherwise
(total_queued - edges_visited) / edges_visited, and in either case the
result is then multiplied by 100.  The C code evaluates this in double
precision; the model uses exact rational arithmetic for the same
expression. -/
def redundant_work (g : Csr) (h_labels : List Int) (total_queued : Int) : ℚ :=
  (if total_queued > 0
   then (((total_queued : ℚ) - ((edges_visited g h_labels : Int) : ℚ)) /
          ((edges_visited g h_labels : Int) : ℚ))
   else 0) * 100

/-- Modelled from the spec: the vertex-id width tag declared in gunrock.h,
which is not under src/; the enumerators are the ones the dispatch
switches name. -/
inductive VtxIdTag where
  | VTXID_INT
deriving DecidableEq, Repr

/-- Modelled from the spec: the size-counter width tag declared in
gunrock.h, which is not under src/. -/
inductive SizeTag where
  | SIZET_INT
deriving DecidableEq, Repr

/-- Modelled from the spec: the value width tag declared in gunrock.h,
which is not under src/. -/
inductive ValueTag where
  | VALUE_INT
  | VALUE_UINT
  | VALUE_FLOAT
deriving DecidableEq, Repr

/-- Datatype selector passed to the dispatch functions (GunrockDataType in
gunrock.h): one tag for each of vertex-id width, size-counter width and
value width. -/
structure GunrockDataType where
  VTXID_TYPE : VtxIdTag
  SIZET_TYPE : SizeTag
  VALUE_TYPE : ValueTag
deriving DecidableEq, Repr

/-- Modelled from the spec: the source-selection mode declared in
gunrock.h, which is not under src/.  The three recognized modes are
manually, randomize and largest_degree; outOfEnum stands for any other
value a C enum variable may carry, which both dispatch switches handle
through their default branch. -/
inductive SrcMode where
  | manually
  | randomize
  | largest_degree
  | outOfEnum
deriving DecidableEq, Repr

/-- The configuration fields of GunrockConfig that the two dispatch
functions read (bfs_app.cu lines 271-297, pr_app.cu lines 253-279). -/
structure GunrockConfig where
  src_mode : SrcMode
  src_node : Int
  mark_pred : Bool
  idempotence : Bool
  queue_size : ℚ
  delta : ℚ
  error : ℚ
  max_iter : Int
deriving DecidableEq, Repr

/-- Modelled from the spec: graphio::RandomNode, which is not under src/,
picks a uniformly random vertex id in [0, nodes); the random draw is
passed in explicitly so the selection is a deterministic function of it. -/
def RandomNode (nodes : Nat) (draw : Nat) : Int :=
  if nodes = 0 then 0 else ((draw % nodes : Nat) : Int)

/-- One comparison step of the highest-degree scan: keep the candidate
with the strictly larger out-degree. -/
def hdStep (g : Csr) (a : Nat × Int) (v : Nat) : Nat × Int :=
  if degree g v > a.2 then (v, degree g v) else a

/-- Modelled from the spec: Csr::GetNodeWithHighestDegree, which is not
under src/, scans all vertices and returns a vertex of highest out-degree
together with that degree (the degree is returned through an out
parameter in the C++ code). -/
def GetNodeWithHighestDegree (g : Csr) : Nat × Int :=
  (List.range g.nodes).foldl (hdStep g) (0, degree g 0)

/-- Source-vertex selection switch of dispatch_bfs (bfs_app.cu lines
270-294): randomize draws a random node, largest_degree takes a highest
out-degree node, manually takes the configured id, and the default branch
leaves the initial value 0. -/
def bfs_select_src (cfg : GunrockConfig) (g : Csr) (draw : Nat) : Int :=
  match cfg.src_mode with
  | .randomize => RandomNode g.nodes draw
  | .largest_degree => ((GetNodeWithHighestDegree g).1 : Int)
  | .manually => cfg.src_node
  | .outOfEnum => 0

/-- Source-vertex selection switch of dispatch_page_rank (pr_app.cu lines
252-276); identical to the BFS one except that the default branch leaves
the initial value -1, the marker for general PageRank. -/
def pr_select_src (cfg : GunrockConfig) (g : Csr) (draw : Nat) : Int :=
  match cfg.src_mode with
  | .randomize => RandomNode g.nodes draw
  | .largest_degree => ((GetNodeWithHighestDegree g).1 : Int)
  | .manually => cfg.src_node
  | .outOfEnum => -1

/-- Observable outcome of one dispatch_bfs call: proceed into run_bfs with
the chosen source vertex and the two template flags, print the
unsupported-type-combination message, or fall through the switches
silently. -/
inductive BfsDispatchAction where
  | run (src : Int) (mark_pred : Bool) (idempotence : Bool)
  | unsupportedMessage
  | silent
deriving DecidableEq, Repr

/-- Observable outcome of one dispatch_page_rank call. -/
inductive PrDispatchAction where
  | run (src : Int)
  | unsupportedMessage
  | silent
deriving DecidableEq, Repr

/-- Datatype dispatch of the BFS entry point (bfs_app.cu lines 241-373):
nested switches on the three type tags.  The supported combination
(int, int, int) selects a source vertex and calls run_bfs, with the
mark_pred and idempotence flags of the configuration choosing one of the
four template instantiations (lines 299-348); the other two VALUE cases
print "Not Yet Support This DataType Combination." and return. -/
def dispatch_bfs (dt : GunrockDataType) (cfg : GunrockConfig) (g : Csr)
    (draw : Nat) : BfsDispatchAction :=
  match dt.VTXID_TYPE with
  | .VTXID_INT =>
    match dt.SIZET_TYPE with
    | .SIZET_INT =>
      match dt.VALUE_TYPE with
      | .VALUE_INT => .run (bfs_select_src cfg g draw) cfg.mark_pred cfg.idempotence
      | .VALUE_UINT => .unsupportedMessage
      | .VALUE_FLOAT => .unsupportedMessage

/-- Datatype dispatch of the PageRank entry point (pr_app.cu lines
211-306): the supported combination is (int, int, float); the VALUE_INT
and VALUE_UINT cases print "Not Yet Support This DataType Combination."
and return. -/
def dispatch_page_rank (dt : GunrockDataType) (cfg : GunrockConfig) (g : Csr)
    (draw : Nat) : PrDispatchAction :=
  match dt.VTXID_TYPE with
  | .VTXID_INT =>
    match dt.SIZET_TYPE with
    | .SIZET_INT =>
      match dt.VALUE_TYPE with
      | .VALUE_INT => .unsupportedMessage
      | .VALUE_UINT => .unsupportedMessage
      | .VALUE_FLOAT => .run (pr_select_src cfg g draw)

/-- The supported BFS datatype combination (int, int, int). -/
def dtIII : GunrockDataType := ⟨.VTXID_INT, .SIZET_INT, .VALUE_INT⟩

/-- The supported PageRank datatype combination (int, int, float). -/
def dtIIF : GunrockDataType := ⟨.VTXID_INT, .SIZET_INT, .VALUE_FLOAT⟩

/-- Two-vertex graph with the single edge 0 to 1 (row offsets [0,1,1],
column indices [1]), used as a concrete input. -/
def gChain : Csr := ⟨2, [0, 1, 1], [1]⟩

/-- One isolated vertex with no edges (row offsets [0,0]). -/
def gIsolated : Csr := ⟨1, [0, 0], []⟩

/-- Configuration requesting predecessor marking together with
idempotence, explicit source 0, and the default PageRank parameters. -/
def cfgBoth : GunrockConfig :=
  ⟨.manually, 0, true, true, 1, 17 / 20, 1 / 100, 20⟩

/-- Configuration whose source-selection mode is outside the recognized
enumeration. -/
def cfgOutOfEnum : GunrockConfig :=
  ⟨.outOfEnum, 7, false, false, 1, 17 / 20, 1 / 100, 20⟩

/-- Result codes of the engine calls the drivers wrap in util::GRError.
Modelled from the spec: the success value, the InvalidSource failure of
Problem::Reset and the NotReady failure of Problem::Extract. -/
inductive GrError where
  | Success
  | InvalidSource
  | NotReady
deriving DecidableEq, Repr

/-- Lifecycle operations a driver can invoke on the engine. -/
inductive LifeEvent where
  | init
  | reset
  | enact
  | extract
deriving DecidableEq, Repr

/-- Neighbor list of vertex v: the column indices between row_offsets[v]
and row_offsets[v+1]. -/
def neighbors (g : Csr) (v : Nat) : List Int :=
  let a := (g.row_offsets.getD v 0).toNat
  let b := (g.row_offsets.getD (v + 1) 0).toNat
  (g.column_indices.drop a).take (b - a)

/-- Modelled from the spec: one edge relaxation of the traversal functor
(CondEdge plus ApplyEdge): an in-range, still unvisited destination v gets
label d, its predecessor is set to the expanding vertex u when mark_pred
is on, and it joins the next frontier.  The accumulator is the triple of
label array, predecessor array and output frontier. -/
def bfsVisit (g : Csr) (mark_pred : Bool) (u : Nat) (d : Int)
    (acc : List Int × List Int × List Nat) (v : Int) :
    List Int × List Int × List Nat :=
  if 0 ≤ v ∧ v.toNat < g.nodes ∧ acc.1.getD v.toNat 0 = -1 then
    (acc.1.set v.toNat d,
     if mark_pred then acc.2.1.set v.toNat (u : Int) else acc.2.1,
     acc.2.2 ++ [v.toNat])
  else acc

/-- Modelled from the spec: one Advance/Filter iteration expands every
frontier vertex along its outgoing edges, labeling newly reached vertices
with depth d and collecting them into the output frontier. -/
def bfsStep (g : Csr) (mark_pred : Bool) (d : Int)
    (labels preds : List Int) (frontier : List Nat) :
    List Int × List Int × List Nat :=
  frontier.foldl
    (fun acc u => (neighbors g u).foldl (bfsVisit g mark_pred u d) acc)
    (labels, preds, [])

/-- Modelled from the spec: the iteration loop of the BFS enactor, fuel
bounded; it stops at an empty frontier and returns the final label and
predecessor arrays. -/
def bfsLoop (g : Csr) (mark_pred : Bool) :
    Nat → Int → List Int × List Int × List Nat → List Int × List Int
  | 0, _, st => (st.1, st.2.1)
  | fuel + 1, d, st =>
      if st.2.2 = [] then (st.1, st.2.1)
      else bfsLoop g mark_pred fuel (d + 1) (bfsStep g mark_pred d st.1 st.2.1 st.2.2)

/-- Modelled from the spec: the per-run state of BFSProblem
(bfs_problem.cuh, not under src/): the device label and predecessor
arrays, the seeded frontier, and whether a completed Enact has run. -/
structure ProblemState where
  labels : List Int
  preds : List Int
  frontier : List Nat
  enacted : Bool
deriving DecidableEq, Repr

/-- Modelled from the spec: BFSProblem::Init allocates the state arrays
sized to the vertex count, labels and predecessors all at the unvisited
sentinel -1, with no frontier seeded yet. -/
def Problem.Init (g : Csr) : ProblemState :=
  ⟨List.replicate g.nodes (-1), List.replicate g.nodes (-1), [], false⟩

/-- Modelled from the spec: BFSProblem::Reset fails with InvalidSource if
the source vertex is out of range, and otherwise resets the labels to
all-unvisited except the source at depth 0 and seeds the frontier with the
source.  On failure the state is left untouched. -/
def Problem.Reset (g : Csr) (src : Int) (st : ProblemState) :
    GrError × ProblemState :=
  if 0 ≤ src ∧ src < (g.nodes : Int) then
    (.Success,
      ⟨(List.replicate g.nodes (-1)).set src.toNat 0,
       List.replicate g.nodes (-1), [src.toNat], false⟩)
  else (.InvalidSource, st)

/-- Modelled from the spec: BFSEnactor::Enact runs the Advance/Filter loop
from the frontier seeded by Reset and writes the resulting labels and
predecessors back into the problem state, marking it enacted. -/
def Enactor.Enact (g : Csr) (mark_pred : Bool) (st : ProblemState) :
    GrError × ProblemState :=
  let r := bfsLoop g mark_pred (g.nodes + 1) 1 (st.labels, st.preds, st.frontier)
  (.Success, ⟨r.1, r.2, st.frontier, true⟩)

/-- Modelled from the spec: BFSProblem::Extract copies the final labels
into the caller-supplied label buffer and, when a predecessor buffer is
supplied (non-null), the predecessors into it; called before a completed
Enact it returns NotReady and copies nothing. -/
def Problem.Extract (st : ProblemState) (predBufProvided : Bool) :
    GrError × Option (List Int) × Option (List Int) :=
  if st.enacted then
    (.Success, some st.labels, if predBufProvided then some st.preds else none)
  else (.NotReady, none, none)

/-- What one run_bfs call (bfs_app.cu lines 146-230) returns: the order of
engine calls it makes, the Reset and Extract results, the label buffer
aliased into ggraph_out->node_values, and the predecessor output. -/
structure RunResult where
  trace : List LifeEvent
  reset_err : GrError
  extract_err : GrError
  node_values : Option (List Int)
  preds_out : Option (List Int)
deriving DecidableEq, Repr

/-- run_bfs (bfs_app.cu lines 146-230).  h_labels is a fresh engine-side
malloc of nodes ints (line 165); h_preds stays NULL because its allocation
is commented out even when MARK_PREDECESSORS is set (lines 166-170);
Init, Reset, Enact and Extract are all wrapped in util::GRError, which
prints on failure and whose return value the driver discards, so the four
calls always happen, in a straight line, in that order; finally
ggraph_out->node_values is pointed at h_labels (line 211). -/
def run_bfs (mark_pred idempotence : Bool) (g : Csr) (src : Int) : RunResult :=
  let predBufProvided := false
  let st0 := Problem.Init g
  let r1 := Problem.Reset g src st0
  let r2 := Enactor.Enact g mark_pred r1.2
  let r3 := Problem.Extract r2.2 predBufProvided
  ⟨[.init, .reset, .enact, .extract], r1.1, r3.1, r3.2.1, r3.2.2⟩

/-- Modelled from the spec: the per-run state of PRProblem
(pr_problem.cuh, not under src/): the device rank array and whether a
completed Enact has run.  Ranks are floating point in the code, modelled
as exact rationals. -/
structure PrProblemState where
  ranks : List ℚ
  enacted : Bool
deriving DecidableEq, Repr

/-- Modelled from the spec: PRProblem::Init allocates the rank array sized
to the vertex count. -/
def PrProblem.Init (g : Csr) : PrProblemState :=
  ⟨List.replicate g.nodes 0, false⟩

/-- Modelled from the spec and the run_page_rank doc comment: Reset seeds
every rank with 1/nodeCount; the source -1 requests general PageRank and
is accepted, while any other out-of-range source fails with
InvalidSource, leaving the state untouched. -/
def PrProblem.Reset (g : Csr) (src : Int) (st : PrProblemState) :
    GrError × PrProblemState :=
  if src = -1 ∨ (0 ≤ src ∧ src < (g.nodes : Int)) then
    (.Success, ⟨List.replicate g.nodes ((1 : ℚ) / (g.nodes : ℚ)), false⟩)
  else (.InvalidSource, st)

/-- Modelled from the spec: one rank-propagation iteration; every vertex
redistributes delta times its rank over its out-neighbors, on top of the
uniform (1 - delta) / nodeCount base mass. -/
def prIter (g : Csr) (delta : ℚ) (r : List ℚ) : List ℚ :=
  (List.range g.nodes).foldl
    (fun acc u =>
      (neighbors g u).foldl
        (fun acc2 v =>
          if 0 ≤ v ∧ v.toNat < g.nodes then
            acc2.set v.toNat
              (acc2.getD v.toNat 0 + delta * r.getD u 0 / ((degree g u : Int) : ℚ))
          else acc2)
        acc)
    (List.replicate g.nodes ((1 - delta) / (g.nodes : ℚ)))

/-- Modelled from the spec: the PageRank enactor loop, at most max_iter
iterations, stopping early once every rank changes by at most the
convergence threshold. -/
def prLoop (g : Csr) (delta thres : ℚ) : Nat → List ℚ → List ℚ
  | 0, r => r
  | fuel + 1, r =>
      let r2 := prIter g delta r
      if (List.range g.nodes).all (fun v => |r2.getD v 0 - r.getD v 0| ≤ thres)
      then r2
      else prLoop g delta thres fuel r2

/-- Modelled from the spec: PREnactor::Enact iterates rank propagation
from the state ranks and marks the state enacted. -/
def PrEnactor.Enact (g : Csr) (delta thres : ℚ) (max_iter : Int)
    (st : PrProblemState) : GrError × PrProblemState :=
  (.Success, ⟨prLoop g delta thres max_iter.toNat st.ranks, true⟩)

/-- Modelled from the spec: PRProblem::Extract copies the final ranks into
the caller rank buffer and the vertex ids into the caller node-id buffer;
called before a completed Enact it returns NotReady and copies nothing. -/
def PrProblem.Extract (g : Csr) (st : PrProblemState) :
    GrError × Option (List ℚ) × Option (List Int) :=
  if st.enacted then
    (.Success, some st.ranks,
     some ((List.range g.nodes).map (fun v => (v : Int))))
  else (.NotReady, none, none)

/-- What one run_page_rank call (pr_app.cu lines 125-198) returns. -/
structure PrRunResult where
  trace : List LifeEvent
  reset_err : GrError
  extract_err : GrError
  page_rank_out : Option (List ℚ)
  node_ids_out : Option (List Int)
deriving DecidableEq, Repr

/-- run_page_rank (pr_app.cu lines 125-198): Init, Reset, Enact and
Extract called unconditionally in that order, each wrapped in
util::GRError whose return value the driver discards; Extract writes into
the caller-supplied page_rank and node_ids buffers (line 180). -/
def run_page_rank (g : Csr) (src : Int) (delta thres : ℚ) (max_iter : Int) :
    PrRunResult :=
  let st0 := PrProblem.Init g
  let r1 := PrProblem.Reset g src st0
  let r2 := PrEnactor.Enact g delta thres max_iter r1.2
  let r3 := PrProblem.Extract g r2.2
  ⟨[.init, .reset, .enact, .extract], r1.1, r3.1, r3.2.1, r3.2.2⟩

/-- Vertex p is reached by a run from the given source: the source is a
valid vertex id and p lies on a chain of out-edges starting at it (each
step goes from a vertex to one of its out-neighbors). -/
def ReachedBy (g : Csr) (src : Int) (p : Nat) : Prop :=
  0 ≤ src ∧ src < (g.nodes : Int) ∧
    Relation.ReflTransGen (fun a b : Nat => (b : Int) ∈ neighbors g a) src.toNat p

/-- Invariant of the BFS loop state (labels, predecessors, frontier): the
label array stays sized to the vertex count, every in-range vertex whose
label differs from the unvisited sentinel is reached from the source, and
every frontier vertex is reached from the source. -/
def ReachInv (g : Csr) (src : Int) (st : List Int × List Int × List Nat) : Prop :=
  st.1.length = g.nodes
  ∧ (∀ p : Nat, p < g.nodes → st.1.getD p 0 ≠ -1 → ReachedBy g src p)
  ∧ ∀ u ∈ st.2.2, ReachedBy g src u

/-- Three-vertex graph with the single edge 1 to 2 (row offsets
[0,0,1,1]): vertex 2 has an in-edge yet is unreachable from vertex 0. -/
def gBranch : Csr := ⟨3, [0, 0, 1, 1], [2]⟩

/-- Configuration selecting a random source. -/
def cfgRandom : GunrockConfig :=
  ⟨.randomize, 0, false, false, 1, 17 / 20, 1 / 100, 20⟩

/-- Configuration selecting a highest-degree source. -/
def cfgMaxDeg : GunrockConfig :=
  ⟨.largest_degree, 0, false, false, 1, 17 / 20, 1 / 100, 20⟩

/-- Heap of caller-owned buffers: a buffer id maps to its contents, or to
none once freed. -/
def Heap : Type := Nat → Option (List Int)

/-- The two aliasing pointers of the stack Csr wrapper the dispatch
functions build: each is either NULL or a caller buffer id. -/
structure CsrPtrs where
  row_offsets : Option Nat
  column_indices : Option Nat
deriving DecidableEq, Repr

/-- Modelled from the spec and the dispatch comment "reset for free
memory" (bfs_app.cu line 349): when the stack Csr wrapper dies, its
destructor (the Csr class is not under src/) frees every buffer its
pointers still reference, which is why the dispatch functions null the
aliases first. -/
def csrDestruct (h : Heap) (p : CsrPtrs) : Heap :=
  fun id =>
    if p.row_offsets = some id ∨ p.column_indices = some id then none else h id

/-- Pointer lifecycle of the supported branch of dispatch_bfs (bfs_app.cu
lines 256-352): alias the caller row-offset and column-index buffers into
the stack Csr wrapper, run (the driver only reads through the aliases; it
contains no store or free through them), null both aliases (lines
350-351), and let the wrapper be destroyed.  Returns the heap after
wrapper destruction together with the run result. -/
def dispatch_bfs_mem (h : Heap) (nodes : Nat) (rowId colId : Nat)
    (cfg : GunrockConfig) (draw : Nat) : Heap × RunResult :=
  let aliased : CsrPtrs := ⟨some rowId, some colId⟩
  let g : Csr := ⟨nodes, ((aliased.row_offsets.bind h).getD []),
                  ((aliased.column_indices.bind h).getD [])⟩
  let res := run_bfs cfg.mark_pred cfg.idempotence g (bfs_select_src cfg g draw)
  let cleared : CsrPtrs := ⟨none, none⟩
  (csrDestruct h cleared, res)

/-- Pointer lifecycle of the supported branch of dispatch_page_rank
(pr_app.cu lines 238-296), identical in structure to the BFS one; the
aliases are nulled at lines 295-296 before the wrapper dies. -/
def dispatch_page_rank_mem (h : Heap) (nodes : Nat) (rowId colId : Nat)
    (cfg : GunrockConfig) (draw : Nat) : Heap × PrRunResult :=
  let aliased : CsrPtrs := ⟨some rowId, some colId⟩
  let g : Csr := ⟨nodes, ((aliased.row_offsets.bind h).getD []),
                  ((aliased.column_indices.bind h).getD [])⟩
  let res := run_page_rank g (pr_select_src cfg g draw) cfg.delta cfg.error cfg.max_iter
  let cleared : CsrPtrs := ⟨none, none⟩
  (csrDestruct h cleared, res)

end Gunrock

namespace Gunrock

lemma foldl_add_pair (c1 c2 : Nat → Int) :
    ∀ (l : List Nat) (a b : Int),
      l.foldl (fun acc i => (acc.1 + c1 i, acc.2 + c2 i)) (a, b)
        = (a + (l.map c1).sum, b + (l.map c2).sum) := by
  intro l
  induction l with
  | nil => intro a b; simp
  | cons x xs ih =>
      intro a b
      simp only [List.foldl_cons, List.map_cons, List.sum_cons, ih]
      rw [Prod.mk.injEq]
      constructor <;> ring

lemma visitedCounts_eq_sums (g : Csr) (h_labels : List Int) :
    visitedCounts g h_labels =
      (((List.range g.nodes).map
          (fun i => if h_labels.getD i (-1) > -1 then (1 : Int) else 0)).sum,
       ((List.range g.nodes).map
          (fun i => if h_labels.getD i (-1) > -1 then degree g i else 0)).sum) := by
  have hfun :
      (fun (acc : Int × Int) (i : Nat) =>
        if h_labels.getD i (-1) > -1 then (acc.1 + 1, acc.2 + degree g i) else acc)
      = (fun (acc : Int × Int) (i : Nat) =>
        (acc.1 + (if h_labels.getD i (-1) > -1 then (1 : Int) else 0),
         acc.2 + (if h_labels.getD i (-1) > -1 then degree g i else 0))) := by
    funext acc i
    by_cases h : h_labels.getD i (-1) > -1
    · rw [if_pos h, if_pos h, if_pos h]
    · rw [if_neg h, if_neg h, if_neg h, add_zero, add_zero]
  unfold visitedCounts
  rw [hfun, foldl_add_pair]
  simp

lemma edges_visited_eq_sum (g : Csr) (h_labels : List Int) :
    edges_visited g h_labels =
      ((List.range g.nodes).map
        (fun i => if h_labels.getD i (-1) > -1 then degree g i else 0)).sum := by
  unfold edges_visited
  rw [visitedCounts_eq_sums]

lemma foldl_invariant {α β : Type} (P : α → Prop) :
    ∀ (l : List β) (f : α → β → α) (a : α),
      P a → (∀ x b, b ∈ l → P x → P (f x b)) → P (l.foldl f a) := by
  intro l
  induction l with
  | nil => intro f a h _; exact h
  | cons y ys ih =>
      intro f a h hstep
      exact ih f (f a y) (hstep a y (List.mem_cons_self y ys) h)
        (fun x b hb hx => hstep x b (List.mem_cons_of_mem y hb) hx)

lemma getD_set_ne {α : Type} (l : List α) (i p : Nat) (x d : α) (h : i ≠ p) :
    (l.set i x).getD p d = l.getD p d := by
  simp [List.getD_eq_getElem?_getD, List.getElem?_set_ne h]

lemma getD_replicate {α : Type} (n p : Nat) (x d : α) (h : p < n) :
    (List.replicate n x).getD p d = x := by
  simp [List.getD_eq_getElem?_getD, List.getElem?_replicate, h]

lemma RandomNode_range (nodes draw : Nat) (h : 0 < nodes) :
    0 ≤ RandomNode nodes draw ∧ RandomNode nodes draw < (nodes : Int) := by
  unfold RandomNode
  rw [if_neg (Nat.pos_iff_ne_zero.mp h)]
  exact ⟨Int.ofNat_nonneg _, by exact_mod_cast Nat.mod_lt _ h⟩

lemma hd_fold (g : Csr) :
    ∀ (l : List Nat) (acc : Nat × Int), acc.2 = degree g acc.1 →
      (l.foldl (hdStep g) acc).2 = degree g (l.foldl (hdStep g) acc).1
      ∧ (∀ v ∈ l, degree g v ≤ (l.foldl (hdStep g) acc).2)
      ∧ (l.foldl (hdStep g) acc = acc ∨ (l.foldl (hdStep g) acc).1 ∈ l)
      ∧ acc.2 ≤ (l.foldl (hdStep g) acc).2 := by
  intro l
  induction l with
  | nil =>
      intro acc h
      refine ⟨h, ?_, Or.inl rfl, le_refl _⟩
      intro v hv
      cases hv
  | cons x xs ih =>
      intro acc h
      have ha : (hdStep g acc x).2 = degree g (hdStep g acc x).1 := by
        unfold hdStep
        split
        · rfl
        · exact h
      have hax : degree g x ≤ (hdStep g acc x).2 := by
        unfold hdStep
        split
        · exact le_refl _
        · omega
      have hacc : acc.2 ≤ (hdStep g acc x).2 := by
        unfold hdStep
        split
        · omega
        · exact le_refl _
      obtain ⟨ih1, ih2, ih3, ih4⟩ := ih (hdStep g acc x) ha
      rw [List.foldl_cons]
      refine ⟨ih1, ?_, ?_, hacc.trans ih4⟩
      · intro v hv
        rcases List.mem_cons.mp hv with h1 | h1
        · subst h1
          exact hax.trans ih4
        · exact ih2 v h1
      · rcases ih3 with h1 | h1
        · by_cases hc : degree g x > acc.2
          · right
            rw [h1]
            unfold hdStep
            rw [if_pos hc]
            exact List.mem_cons_self x xs
          · left
            rw [h1]
            unfold hdStep
            rw [if_neg hc]
        · right
          exact List.mem_cons_of_mem x h1

lemma GetNodeWithHighestDegree_max (g : Csr) (hn : 0 < g.nodes) :
    (GetNodeWithHighestDegree g).1 < g.nodes
    ∧ ∀ v, v < g.nodes →
        degree g v ≤ degree g (GetNodeWithHighestDegree g).1 := by
  obtain ⟨h1, h2, h3, _⟩ :=
    hd_fold g (List.range g.nodes) (0, degree g 0) rfl
  unfold GetNodeWithHighestDegree
  constructor
  · rcases h3 with hcase | hcase
    · rw [hcase]
      exact hn
    · exact List.mem_range.mp hcase
  · intro v hv
    have := h2 v (List.mem_range.mpr hv)
    rw [h1] at this
    exact this

lemma mem_neighbors_mem_col (g : Csr) (u : Nat) :
    ∀ x ∈ neighbors g u, x ∈ g.column_indices := by
  intro x hx
  unfold neighbors at hx
  exact List.drop_subset _ _ (List.take_subset _ _ hx)

/-- C1 counterexample: a configuration requesting both predecessor marking
and idempotence is not rejected with a configuration error; dispatch_bfs
deterministically proceeds into run_bfs with both template flags set. -/
theorem dispatch_bfs_markpred_idempotence_not_rejected :
    dispatch_bfs dtIII cfgBoth gChain 0 = .run 0 true true
      ∧ dispatch_bfs dtIII cfgBoth gChain 0 ≠ .unsupportedMessage
      ∧ dispatch_bfs dtIII cfgBoth gChain 0 ≠ .silent := by
  refine ⟨rfl, by decide, by decide⟩

/-- C1 (amended): dispatch_bfs never rejects the mark_pred plus
idempotence combination; for the supported datatype it deterministically
proceeds, calling run_bfs instantiated with MARK_PREDECESSORS and
ENABLE_IDEMPOTENCE both true, and that run executes the full Init, Reset,
Enact, Extract sequence. -/
theorem dispatch_bfs_markpred_idempotence_proceeds
    (cfg : GunrockConfig) (g : Csr) (draw : Nat)
    (hm : cfg.mark_pred = true) (hi : cfg.idempotence = true) :
    dispatch_bfs dtIII cfg g draw
        = .run (bfs_select_src cfg g draw) true true
    ∧ (run_bfs true true g (bfs_select_src cfg g draw)).trace
        = [.init, .reset, .enact, .extract] := by
  constructor
  · unfold dispatch_bfs dtIII
    rw [hm, hi]
  · rfl

/-- C1 witness: the amended statement applied to the concrete
configuration with both flags set. -/
theorem dispatch_bfs_markpred_idempotence_proceeds_witness :
    dispatch_bfs dtIII cfgBoth gChain 0
        = .run (bfs_select_src cfgBoth gChain 0) true true
    ∧ (run_bfs true true gChain (bfs_select_src cfgBoth gChain 0)).trace
        = [.init, .reset, .enact, .extract] :=
  dispatch_bfs_markpred_idempotence_proceeds cfgBoth gChain 0 rfl rfl

/-- C3: for every datatype combination, each dispatch entry point prints
the unsupported-combination message exactly when the combination is not
its supported one, and neither entry point ever falls through silently. -/
theorem dispatch_unsupported_type_combination_signalled
    (dt : GunrockDataType) (cfg : GunrockConfig) (g : Csr) (draw : Nat) :
    (dispatch_bfs dt cfg g draw = .unsupportedMessage ↔ dt ≠ dtIII)
    ∧ dispatch_bfs dt cfg g draw ≠ .silent
    ∧ (dispatch_page_rank dt cfg g draw = .unsupportedMessage ↔ dt ≠ dtIIF)
    ∧ dispatch_page_rank dt cfg g draw ≠ .silent := by
  obtain ⟨vt, st, vl⟩ := dt
  cases vt
  cases st
  cases vl <;>
    simp [dispatch_bfs, dispatch_page_rank, dtIII, dtIIF]

/-- C9: a configuration whose source-selection mode is none of the three
recognized modes silently falls back to the default source, vertex 0 for
the BFS entry point and -1 (general PageRank) for the rank-propagation
entry point, and both dispatches proceed with no error. -/
theorem unrecognized_src_mode_defaults
    (cfg : GunrockConfig) (g : Csr) (draw : Nat)
    (h : cfg.src_mode = .outOfEnum) :
    dispatch_bfs dtIII cfg g draw = .run 0 cfg.mark_pred cfg.idempotence
    ∧ dispatch_page_rank dtIIF cfg g draw = .run (-1) := by
  constructor
  · unfold dispatch_bfs dtIII bfs_select_src
    rw [h]
  · unfold dispatch_page_rank dtIIF pr_select_src
    rw [h]

/-- C9 witness: the defaults at a concrete out-of-enumeration
configuration. -/
theorem unrecognized_src_mode_defaults_witness :
    dispatch_bfs dtIII cfgOutOfEnum gChain 0 = .run 0 false false
    ∧ dispatch_page_rank dtIIF cfgOutOfEnum gChain 0 = .run (-1) :=
  unrecognized_src_mode_defaults cfgOutOfEnum gChain 0 rfl

/-- C4 counterexample: with the two-vertex graph and out-of-range source 5,
Reset reports InvalidSource, yet the run still reaches Enact (the driver
discards the GRError result) and completes, delivering an all-sentinel
label array. -/
theorem run_bfs_invalid_source_reaches_enact :
    (run_bfs false false gChain 5).reset_err = .InvalidSource
    ∧ .enact ∈ (run_bfs false false gChain 5).trace
    ∧ (run_bfs false false gChain 5).node_values = some [-1, -1] := by
  refine ⟨by decide, by decide, by decide⟩

/-- C4 (amended): for an out-of-range source, Problem.Reset does fail with
InvalidSource, but the drivers wrap the call in util::GRError, which only
prints, and proceed to Enact with that source anyway; the BFS run then
completes over an unseeded frontier and returns an all-sentinel label
array.  For the PageRank driver the same holds for any out-of-range
source other than -1, which is the documented general-PageRank marker. -/
theorem invalid_source_reset_error_but_enact_runs
    (g : Csr) (src : Int) (mp idem : Bool) (d t : ℚ) (mi : Int)
    (h : ¬(0 ≤ src ∧ src < (g.nodes : Int))) :
    (run_bfs mp idem g src).reset_err = .InvalidSource
    ∧ .enact ∈ (run_bfs mp idem g src).trace
    ∧ (run_bfs mp idem g src).node_values = some (List.replicate g.nodes (-1))
    ∧ (src ≠ -1 →
        (run_page_rank g src d t mi).reset_err = .InvalidSource
        ∧ .enact ∈ (run_page_rank g src d t mi).trace) := by
  have hreset :
      Problem.Reset g src (Problem.Init g) = (.InvalidSource, Problem.Init g) := by
    unfold Problem.Reset
    rw [if_neg h]
  refine ⟨?_, ?_, ?_, ?_⟩
  · show (Problem.Reset g src (Problem.Init g)).1 = .InvalidSource
    rw [hreset]
  · show LifeEvent.enact ∈ [.init, .reset, .enact, .extract]
    simp
  · show (Problem.Extract
        (Enactor.Enact g mp (Problem.Reset g src (Problem.Init g)).2).2 false).2.1
      = some (List.replicate g.nodes (-1))
    rw [hreset]
    unfold Enactor.Enact Problem.Init Problem.Extract bfsLoop
    simp
  · intro hne
    have hpr :
        PrProblem.Reset g src (PrProblem.Init g)
          = (.InvalidSource, PrProblem.Init g) := by
      unfold PrProblem.Reset
      rw [if_neg]
      intro hcase
      rcases hcase with h1 | h1
      · exact hne h1
      · exact h h1
    constructor
    · show (PrProblem.Reset g src (PrProblem.Init g)).1 = .InvalidSource
      rw [hpr]
    · show LifeEvent.enact ∈ [.init, .reset, .enact, .extract]
      simp

/-- C4 witness: the amended statement applied to the two-vertex graph with
source 5. -/
theorem invalid_source_reset_error_but_enact_runs_witness :
    (run_bfs true false gChain 5).reset_err = .InvalidSource
    ∧ (run_page_rank gChain 5 (17 / 20) (1 / 100) 20).reset_err
        = .InvalidSource := by
  have h :=
    invalid_source_reset_error_but_enact_runs gChain 5 true false
      (17 / 20) (1 / 100) 20 (by decide)
  exact ⟨h.1, (h.2.2.2 (by decide)).1⟩

/-- C7: each driver invokes the engine in the fixed order Init, Reset,
Enact, Extract, and the (spec-modelled) Extract of either problem returns
NotReady when invoked on a state with no completed Enact. -/
theorem lifecycle_order_and_notready :
    (∀ mp idem g src,
      (run_bfs mp idem g src).trace = [.init, .reset, .enact, .extract])
    ∧ (∀ g src d t mi,
      (run_page_rank g src d t mi).trace = [.init, .reset, .enact, .extract])
    ∧ (∀ st : ProblemState, ∀ pb : Bool,
        st.enacted = false → (Problem.Extract st pb).1 = .NotReady)
    ∧ (∀ (g : Csr) (st : PrProblemState),
        st.enacted = false → (PrProblem.Extract g st).1 = .NotReady) := by
  refine ⟨fun _ _ _ _ => rfl, fun _ _ _ _ _ => rfl, ?_, ?_⟩
  · intro st pb h
    unfold Problem.Extract
    rw [h]
    rfl
  · intro g st h
    unfold PrProblem.Extract
    rw [h]
    rfl

/-- C7 witness: the order at a concrete run, and NotReady on a freshly
initialized, never enacted problem. -/
theorem lifecycle_order_and_notready_witness :
    (run_bfs false false gChain 0).trace = [.init, .reset, .enact, .extract]
    ∧ (Problem.Extract (Problem.Init gChain) false).1 = .NotReady := by
  have h := lifecycle_order_and_notready
  exact ⟨h.1 false false gChain 0, h.2.2.1 (Problem.Init gChain) false rfl⟩

/-- C8: the caller-owned row-offset and column-index buffers survive both
dispatch functions untouched at every buffer id, because the dispatch code
nulls its aliasing pointers before the Csr wrapper is destroyed; had the
aliases not been cleared, the wrapper destructor would have freed both
caller buffers. -/
theorem caller_buffers_preserved (h : Heap) (nodes rowId colId : Nat)
    (cfg : GunrockConfig) (draw : Nat) :
    (∀ id, (dispatch_bfs_mem h nodes rowId colId cfg draw).1 id = h id)
    ∧ (∀ id, (dispatch_page_rank_mem h nodes rowId colId cfg draw).1 id = h id)
    ∧ csrDestruct h ⟨some rowId, some colId⟩ rowId = none
    ∧ csrDestruct h ⟨some rowId, some colId⟩ colId = none := by
  refine ⟨?_, ?_, ?_, ?_⟩ <;>
    simp [dispatch_bfs_mem, dispatch_page_rank_mem, csrDestruct]

/-- C5 counterexample: on the two-vertex chain with labels [0,1] and
total_queued = 3, DisplayStats reports redundant work 200, while the ratio
of total work-items queued (3) to distinct finalized vertices (2) is 3/2,
and even read as a percentage it is 150; the reported figure matches
neither, because the code divides the queued excess by edges_visited, not
by the finalized-vertex count. -/
theorem redundant_work_not_queued_to_nodes_ratio :
    redundant_work gChain [0, 1] 3 = 200
      ∧ nodes_visited gChain [0, 1] = 2
      ∧ (200 : ℚ) ≠ (3 : ℚ) / 2
      ∧ (200 : ℚ) ≠ ((3 : ℚ) / 2) * 100 := by
  have hE : edges_visited gChain [0, 1] = 1 := by decide
  refine ⟨?_, by decide, by norm_num, by norm_num⟩
  unfold redundant_work
  rw [hE]
  norm_num

/-- C5 (amended): the reported redundant-work percentage is
100 * (total_queued - edges_visited) / edges_visited when total_queued > 0
and 0 otherwise, where edges_visited is the summed out-degree of the
vertices whose label exceeds -1; it is not the queued-to-finalized-vertices
ratio. -/
theorem redundant_work_formula (g : Csr) (h_labels : List Int) (q : Int) :
    redundant_work g h_labels q =
      if 0 < q then
        ((q : ℚ) -
            ((((List.range g.nodes).map
                (fun i => if h_labels.getD i (-1) > -1 then degree g i else 0)).sum : Int) : ℚ))
          / ((((List.range g.nodes).map
                (fun i => if h_labels.getD i (-1) > -1 then degree g i else 0)).sum : Int) : ℚ)
          * 100
      else 0 := by
  unfold redundant_work
  rw [edges_visited_eq_sum]
  by_cases h : 0 < q
  · rw [if_pos h, if_pos h]
  · rw [if_neg h, if_neg h, zero_mul]

/-- C10 counterexample: the isolated one-vertex graph with label array [0]
and total_queued = 1 passes the total_queued > 0 guard and has a visited
vertex, yet edges_visited is 0, so the redundant-work expression divides
by zero. -/
theorem edges_visited_zero_with_positive_queue :
    nodes_visited gIsolated [0] = 1
      ∧ edges_visited gIsolated [0] = 0
      ∧ (1 : Int) > 0 := by
  refine ⟨by decide, by decide, by decide⟩

/-- C10 (amended): total_queued > 0 does not make edges_visited nonzero;
whenever every vertex with label above the sentinel has out-degree zero,
edges_visited is 0 and the division in DisplayStats is a division by
zero. -/
theorem edges_visited_zero_when_visited_degreeless (g : Csr) (h_labels : List Int)
    (h : ∀ i, i < g.nodes → h_labels.getD i (-1) > -1 → degree g i = 0) :
    edges_visited g h_labels = 0 := by
  rw [edges_visited_eq_sum]
  apply List.sum_eq_zero
  intro x hx
  rcases List.mem_map.mp hx with ⟨i, hi, rfl⟩
  by_cases hl : h_labels.getD i (-1) > -1
  · rw [if_pos hl]
    exact h i (List.mem_range.mp hi) hl
  · rw [if_neg hl]

/-- C6: the starting vertex follows the source-selection mode: manually
uses exactly the supplied id, randomize uses the drawn random vertex
(in range whenever the graph is nonempty), and largest_degree uses a
vertex whose out-degree is maximal. -/
theorem source_selection_modes (cfg : GunrockConfig) (g : Csr) (draw : Nat) :
    (cfg.src_mode = .manually →
        bfs_select_src cfg g draw = cfg.src_node
        ∧ pr_select_src cfg g draw = cfg.src_node)
    ∧ (cfg.src_mode = .randomize →
        bfs_select_src cfg g draw = RandomNode g.nodes draw
        ∧ pr_select_src cfg g draw = RandomNode g.nodes draw
        ∧ (0 < g.nodes →
            0 ≤ RandomNode g.nodes draw
            ∧ RandomNode g.nodes draw < (g.nodes : Int)))
    ∧ (cfg.src_mode = .largest_degree →
        bfs_select_src cfg g draw = ((GetNodeWithHighestDegree g).1 : Int)
        ∧ pr_select_src cfg g draw = ((GetNodeWithHighestDegree g).1 : Int)
        ∧ (0 < g.nodes →
            (GetNodeWithHighestDegree g).1 < g.nodes
            ∧ ∀ v, v < g.nodes →
                degree g v ≤ degree g (GetNodeWithHighestDegree g).1)) := by
  refine ⟨?_, ?_, ?_⟩ <;> intro h
  · unfold bfs_select_src pr_select_src
    rw [h]
    exact ⟨rfl, rfl⟩
  · unfold bfs_select_src pr_select_src
    rw [h]
    exact ⟨rfl, rfl, fun hn => RandomNode_range g.nodes draw hn⟩
  · unfold bfs_select_src pr_select_src
    rw [h]
    exact ⟨rfl, rfl, fun hn => GetNodeWithHighestDegree_max g hn⟩

/-- C6 witness: the three modes evaluated on the two-vertex chain. -/
theorem source_selection_modes_witness :
    bfs_select_src cfgBoth gChain 0 = 0
    ∧ bfs_select_src cfgRandom gChain 3 = RandomNode gChain.nodes 3
    ∧ bfs_select_src cfgMaxDeg gChain 0 = ((GetNodeWithHighestDegree gChain).1 : Int)
    ∧ degree gChain 1 ≤ degree gChain (GetNodeWithHighestDegree gChain).1 := by
  have h1 := (source_selection_modes cfgBoth gChain 0).1 rfl
  have h2 := (source_selection_modes cfgRandom gChain 3).2.1 rfl
  have h3 := (source_selection_modes cfgMaxDeg gChain 0).2.2 rfl
  exact ⟨h1.1, h2.1, h3.1, (h3.2.2 (by decide)).2 1 (by decide)⟩

lemma bfsVisit_reach (g : Csr) (mp : Bool) (u : Nat) (d : Int) (src : Int)
    (acc : List Int × List Int × List Nat) (v : Int)
    (hu : ReachedBy g src u) (hv : v ∈ neighbors g u)
    (h : ReachInv g src acc) :
    ReachInv g src (bfsVisit g mp u d acc v) := by
  obtain ⟨h1, h2, h3⟩ := h
  unfold bfsVisit
  split
  case isTrue hc =>
    have hrv : ReachedBy g src v.toNat := by
      obtain ⟨ha, hb, hpath⟩ := hu
      refine ⟨ha, hb, hpath.tail ?_⟩
      rw [Int.toNat_of_nonneg hc.1]
      exact hv
    refine ⟨?_, ?_, ?_⟩
    · show (acc.1.set v.toNat d).length = g.nodes
      rw [List.length_set]
      exact h1
    · intro p hp hne
      by_cases hep : v.toNat = p
      · exact hep ▸ hrv
      · apply h2 p hp
        have hgd : (acc.1.set v.toNat d).getD p 0 = acc.1.getD p 0 :=
          getD_set_ne _ _ _ _ _ hep
        rw [hgd] at hne
        exact hne
    · intro w hw
      rcases List.mem_append.mp hw with hcase | hcase
      · exact h3 w hcase
      · rcases List.mem_singleton.mp hcase with rfl
        exact hrv
  case isFalse => exact ⟨h1, h2, h3⟩

lemma bfsStep_reach (g : Csr) (mp : Bool) (d : Int) (src : Int)
    (labels preds : List Int) (frontier : List Nat)
    (hf : ∀ u ∈ frontier, ReachedBy g src u)
    (h1 : labels.length = g.nodes)
    (h2 : ∀ p : Nat, p < g.nodes → labels.getD p 0 ≠ -1 → ReachedBy g src p) :
    ReachInv g src (bfsStep g mp d labels preds frontier) := by
  unfold bfsStep
  apply foldl_invariant (ReachInv g src)
  · exact ⟨h1, h2, fun u hu => absurd hu (List.not_mem_nil u)⟩
  · intro x u hu hx
    apply foldl_invariant (ReachInv g src)
    · exact hx
    · intro y v hvm hy
      exact bfsVisit_reach g mp u d src y v (hf u hu) hvm hy

lemma bfsLoop_reach (g : Csr) (mp : Bool) (src : Int) :
    ∀ (fuel : Nat) (d : Int) (st : List Int × List Int × List Nat),
      ReachInv g src st →
      (bfsLoop g mp fuel d st).1.length = g.nodes
      ∧ ∀ p : Nat, p < g.nodes → (bfsLoop g mp fuel d st).1.getD p 0 ≠ -1 →
          ReachedBy g src p := by
  intro fuel
  induction fuel with
  | zero => intro d st h; exact ⟨h.1, h.2.1⟩
  | succ n ih =>
      intro d st h
      simp only [bfsLoop]
      split
      · exact ⟨h.1, h.2.1⟩
      · exact ih (d + 1) _
          (bfsStep_reach g mp d src st.1 st.2.1 st.2.2 h.2.2 h.1 h.2.1)

lemma run_bfs_labels_spec (g : Csr) (src : Int) (mp idem : Bool) :
    ∃ ls, (run_bfs mp idem g src).node_values = some ls
      ∧ ls.length = g.nodes
      ∧ ∀ p : Nat, p < g.nodes → ¬ReachedBy g src p → ls.getD p 0 = -1 := by
  refine ⟨(bfsLoop g mp (g.nodes + 1) 1
      ((Problem.Reset g src (Problem.Init g)).2.labels,
       (Problem.Reset g src (Problem.Init g)).2.preds,
       (Problem.Reset g src (Problem.Init g)).2.frontier)).1, rfl, ?_⟩
  have hinv : ReachInv g src
      ((Problem.Reset g src (Problem.Init g)).2.labels,
       (Problem.Reset g src (Problem.Init g)).2.preds,
       (Problem.Reset g src (Problem.Init g)).2.frontier) := by
    unfold Problem.Reset Problem.Init
    by_cases hv : 0 ≤ src ∧ src < (g.nodes : Int)
    · rw [if_pos hv]
      have hsrc : ReachedBy g src src.toNat :=
        ⟨hv.1, hv.2, Relation.ReflTransGen.refl⟩
      refine ⟨?_, ?_, ?_⟩
      · show ((List.replicate g.nodes (-1 : Int)).set src.toNat 0).length = g.nodes
        rw [List.length_set, List.length_replicate]
      · intro p hp hne
        by_cases hep : src.toNat = p
        · exact hep ▸ hsrc
        · exfalso
          apply hne
          show ((List.replicate g.nodes (-1 : Int)).set src.toNat 0).getD p 0 = -1
          rw [getD_set_ne _ _ _ _ _ hep, getD_replicate _ _ _ _ hp]
      · intro u hu
        rcases List.mem_singleton.mp hu with rfl
        exact hsrc
    · rw [if_neg hv]
      refine ⟨List.length_replicate _ _, ?_,
        fun u hu => absurd hu (List.not_mem_nil u)⟩
      intro p hp hne
      exact absurd (getD_replicate _ _ _ _ hp) hne
  obtain ⟨hl, hr⟩ := bfsLoop_reach g mp src (g.nodes + 1) 1 _ hinv
  refine ⟨hl, ?_⟩
  intro p hp hnr
  by_contra hne
  exact hnr (hr p hp hne)

lemma prIter_length (g : Csr) (delta : ℚ) (r : List ℚ) :
    (prIter g delta r).length = g.nodes := by
  unfold prIter
  apply foldl_invariant (fun l : List ℚ => l.length = g.nodes)
  · exact List.length_replicate _ _
  · intro x u _ hx
    apply foldl_invariant (fun l : List ℚ => l.length = g.nodes)
    · exact hx
    · intro y v _ hy
      split
      · rw [List.length_set]
        exact hy
      · exact hy

lemma prLoop_length (g : Csr) (delta thres : ℚ) :
    ∀ (fuel : Nat) (r : List ℚ), r.length = g.nodes →
      (prLoop g delta thres fuel r).length = g.nodes := by
  intro fuel
  induction fuel with
  | zero => intro r h; exact h
  | succ n ih =>
      intro r h
      simp only [prLoop]
      split
      · exact prIter_length g delta r
      · exact ih _ (prIter_length g delta r)

lemma run_page_rank_ranks_spec (g : Csr) (src : Int) (d t : ℚ) (mi : Int) :
    ∃ rs, (run_page_rank g src d t mi).page_rank_out = some rs
      ∧ rs.length = g.nodes := by
  refine ⟨prLoop g d t mi.toNat
      ((PrProblem.Reset g src (PrProblem.Init g)).2.ranks), rfl, ?_⟩
  apply prLoop_length
  unfold PrProblem.Reset PrProblem.Init
  by_cases hv : src = -1 ∨ (0 ≤ src ∧ src < (g.nodes : Int))
  · rw [if_pos hv]
    exact List.length_replicate _ _
  · rw [if_neg hv]
    exact List.length_replicate _ _

/-- C2 counterexample: with predecessor tracking enabled on the two-vertex
chain from source 0, the run completes with the labels delivered, yet the
predecessor output is nothing: run_bfs never allocates the host
predecessor buffer and passes NULL to Extract, so no predecessor values
reach the caller. -/
theorem run_bfs_predecessors_not_delivered :
    (run_bfs true false gChain 0).preds_out = none
    ∧ (run_bfs true false gChain 0).node_values = some [0, 1] := by
  refine ⟨rfl, by decide⟩

/-- C2 (amended): the BFS label results are delivered through an
engine-allocated buffer whose pointer is stored into the output struct,
sized to the vertex count, with every unreached vertex (every in-range
vertex not reachable from the source along out-edges) carrying the
unvisited sentinel -1; the PageRank ranks are delivered into the
caller-supplied buffer sized to the vertex count; but predecessor values
are never delivered even when predecessor tracking is enabled, because
the host predecessor buffer allocation is commented out and Extract
receives NULL. -/
theorem extract_output_delivery (g : Csr) (src psrc : Int) (idem : Bool)
    (delta thres : ℚ) (mi : Int) :
    (∃ ls, (run_bfs true idem g src).node_values = some ls
        ∧ ls.length = g.nodes
        ∧ ∀ p : Nat, p < g.nodes → ¬ReachedBy g src p → ls.getD p 0 = -1)
    ∧ (run_bfs true idem g src).preds_out = none
    ∧ ∃ rs, (run_page_rank g psrc delta thres mi).page_rank_out = some rs
        ∧ rs.length = g.nodes := by
  obtain ⟨ls, h1, h2, h3⟩ := run_bfs_labels_spec g src true idem
  exact ⟨⟨ls, h1, h2, h3⟩, rfl, run_page_rank_ranks_spec g psrc delta thres mi⟩

/-- C2 witness: the amended statement instantiated on the three-vertex
graph whose only edge is 1 to 2, run from the valid source 0: vertex 2
has an in-edge yet is unreachable from the source, and its delivered
label is the sentinel -1; predecessors are still not delivered, and a
general PageRank run delivers a rank list sized to the vertex count. -/
theorem extract_output_delivery_witness :
    (∃ ls, (run_bfs true true gBranch 0).node_values = some ls
        ∧ ls.getD 2 0 = -1)
    ∧ (run_bfs true true gBranch 0).preds_out = none
    ∧ ∃ rs, (run_page_rank gBranch (-1) (17 / 20) (1 / 100) 20).page_rank_out
          = some rs
        ∧ rs.length = gBranch.nodes := by
  have h := extract_output_delivery gBranch 0 (-1) true (17 / 20) (1 / 100) 20
  obtain ⟨⟨ls, h1, _, h3⟩, h4, h5⟩ := h
  refine ⟨⟨ls, h1, h3 2 (by decide) ?_⟩, h4, h5⟩
  rintro ⟨-, -, hpath⟩
  rcases Relation.ReflTransGen.cases_head hpath with he | ⟨c, hc, -⟩
  · exact absurd he (by decide)
  · have hn : neighbors gBranch ((0 : Int).toNat) = [] := by decide
    rw [hn] at hc
    exact absurd hc (List.not_mem_nil _)

/-- C10 witness: the amended statement applied to the isolated vertex with
label array [0]. -/
theorem edges_visited_zero_when_visited_degreeless_witness :
    edges_visited gIsolated [0] = 0 :=
  edges_visited_zero_when_visited_degreeless gIsolated [0]
    (by
      intro i hi _
      have hi1 : i < 1 := hi
      have h0 : i = 0 := by omega
      subst h0
      rfl)

end Gunrock
